import Mathlib

/-!
# Verification of the FluxWhiteboard engine (src/js/whiteboard.js)

Shallow embedding of the whiteboard engine's camera/transform, element
store, resize algorithm, marquee selection and history subsystem, with
coordinates modelled as rationals (the JS code uses IEEE doubles; the
claims under scrutiny are stated "within floating-point tolerance",
i.e. exactly in rational arithmetic).

Sources embedded:
- the `FluxWhiteboard` class of src/js/whiteboard.js (constructor config,
  screenToWorld / worldToScreen, applyZoom, saveHistory / undo / redo,
  resizeElement, finalizeSelection, updateThemeColors);
- the theme-toggle change handler of src/app.js (which calls
  updateThemeColors and then nulls cached bitmaps of text/pdf elements).
-/

/-- A 2-D point (world or screen coordinates). -/
structure Pt where
  x : ℚ
  y : ℚ
deriving DecidableEq, Repr

/-- Camera state: `this.view = { offsetX, offsetY, scale }`. -/
structure View where
  offsetX : ℚ
  offsetY : ℚ
  scale : ℚ
deriving DecidableEq, Repr

/-- `config.minScale = 0.1` (whiteboard.js line 917). -/
def minScale : ℚ := 1/10

/-- `config.maxScale = 10` (whiteboard.js line 918). -/
def maxScale : ℚ := 10

/-- `screenToWorld(x, y) { return { x: (x - this.view.offsetX) / this.view.scale,
y: (y - this.view.offsetY) / this.view.scale }; }` -/
def screenToWorld (v : View) (x y : ℚ) : Pt :=
  ⟨(x - v.offsetX) / v.scale, (y - v.offsetY) / v.scale⟩

/-- `worldToScreen(x, y) { return { x: x * this.view.scale + this.view.offsetX,
y: y * this.view.scale + this.view.offsetY }; }` -/
def worldToScreen (v : View) (x y : ℚ) : Pt :=
  ⟨x * v.scale + v.offsetX, y * v.scale + v.offsetY⟩

/-- `applyZoom(factor, x, y)`: clamp the new scale into
`[minScale, maxScale]`; bail out if unchanged; otherwise anchor the world
point under `(x, y)` (whiteboard.js lines 1118-1123). -/
def applyZoom (v : View) (factor x y : ℚ) : View :=
  let newScale := min (max (v.scale * factor) minScale) maxScale
  if newScale = v.scale then v
  else
    let mouseWorld := screenToWorld v x y
    { offsetX := x - mouseWorld.x * newScale
      offsetY := y - mouseWorld.y * newScale
      scale := newScale }

/-- C1: For every camera state with nonzero scale and every screen point
`(x, y)`, `worldToScreen(screenToWorld(x, y))` equals `(x, y)` exactly in
rational arithmetic. -/
theorem camera_roundtrip (v : View) (x y : ℚ) (h : v.scale ≠ 0) :
    worldToScreen v (screenToWorld v x y).x (screenToWorld v x y).y = ⟨x, y⟩ := by
  unfold worldToScreen screenToWorld
  simp only [Pt.mk.injEq]
  constructor <;> field_simp

theorem camera_roundtrip_witness :
    worldToScreen ⟨3, 4, 2⟩ (screenToWorld ⟨3, 4, 2⟩ 10 20).x
      (screenToWorld ⟨3, 4, 2⟩ 10 20).y = ⟨10, 20⟩ :=
  camera_roundtrip ⟨3, 4, 2⟩ 10 20 (by norm_num)

/-- C2: If the scale is within bounds and `scale * factor` is already in
`[minScale, maxScale]` (no clamping), then `applyZoom(factor, sx, sy)`
multiplies the scale by `factor` and leaves `screenToWorld(sx, sy)`
unchanged. -/
theorem applyZoom_anchor (v : View) (factor sx sy : ℚ)
    (h1 : minScale ≤ v.scale) (h2 : v.scale ≤ maxScale)
    (h3 : minScale ≤ v.scale * factor) (h4 : v.scale * factor ≤ maxScale) :
    (applyZoom v factor sx sy).scale = v.scale * factor ∧
      screenToWorld (applyZoom v factor sx sy) sx sy = screenToWorld v sx sy := by
  have hmpos : (0 : ℚ) < minScale := by norm_num [minScale]
  have hns : v.scale * factor ≠ 0 := by
    have : (0 : ℚ) < v.scale * factor := lt_of_lt_of_le hmpos h3
    exact ne_of_gt this
  have hs : v.scale ≠ 0 := by
    have : (0 : ℚ) < v.scale := lt_of_lt_of_le hmpos h1
    exact ne_of_gt this
  have hclamp : min (max (v.scale * factor) minScale) maxScale = v.scale * factor := by
    rw [max_eq_left h3, min_eq_left h4]
  unfold applyZoom
  simp only [hclamp]
  split
  case isTrue heq =>
    exact ⟨heq.symm, rfl⟩
  case isFalse hne =>
    refine ⟨rfl, ?_⟩
    unfold screenToWorld
    simp only [Pt.mk.injEq]
    constructor <;> (field_simp; ring)

theorem applyZoom_anchor_witness :
    (applyZoom ⟨0, 0, 1⟩ 2 100 50).scale = 1 * 2 ∧
      screenToWorld (applyZoom ⟨0, 0, 1⟩ 2 100 50) 100 50 =
        screenToWorld ⟨0, 0, 1⟩ 100 50 :=
  applyZoom_anchor ⟨0, 0, 1⟩ 2 100 50 (by norm_num [minScale])
    (by norm_num [maxScale]) (by norm_num [minScale]) (by norm_num [maxScale])

/-! ## Element data model

JS elements are duck-typed records discriminated by a `type` string; we
mirror that with one structure carrying every possibly-present field,
with defaults standing in for absent fields. `width`/`height` double as
stroke width for line/pen and as box dimensions for box elements,
exactly as in the source. -/

/-- The `type` tag of an element (`'line' | 'pen' | 'shape' | 'text' |
'image' | 'pdf'`). -/
inductive ElType
  | line
  | pen
  | shape
  | text
  | image
  | pdf
deriving DecidableEq, Repr

/-- A whiteboard element: the union of the fields the JS objects carry. -/
structure Element where
  id : ℚ := 0
  type : ElType
  p1 : Pt := ⟨0, 0⟩
  p2 : Pt := ⟨0, 0⟩
  points : List Pt := []
  x : ℚ := 0
  y : ℚ := 0
  width : ℚ := 0
  height : ℚ := 0
  fontSize : ℚ := 16
  color : String := ""
  isAutoColor : Bool := false
  fillColor : String := ""
  isAutoFill : Bool := false
  renderedImage : Option String := none
deriving DecidableEq, Repr

/-- `el.type === 'shape' || el.type === 'text' || el.type === 'image'`. -/
def isBoxType (t : ElType) : Prop :=
  t = ElType.shape ∨ t = ElType.text ∨ t = ElType.image

instance (t : ElType) : Decidable (isBoxType t) := by
  unfold isBoxType; infer_instance

/-- `this.interaction.aspectRatio = (el.width / el.height) || 1`
(whiteboard.js line 1171).  The JS `|| 1` fallback maps a falsy quotient
(0 or NaN) to 1; in ℚ the quotient is 0 exactly when `width = 0` or
`height = 0` (JS additionally yields Infinity for `w ≠ 0, h = 0`, which
ℚ cannot represent; the claims only use boxes with positive sides). -/
def recordAspectRatio (w h : ℚ) : ℚ :=
  if w / h = 0 then 1 else w / h

/-- `if (el.renderedImage) el.renderedImage = null` at the head of
`resizeElement` (whiteboard.js line 1238). -/
def stripRendered (el : Element) : Element :=
  if el.renderedImage.isSome then { el with renderedImage := none } else el

/-- Step 1 of the box branch of `resizeElement`: the raw per-handle
recomputation of width/height (whiteboard.js lines 1249-1258), `right`
and `bottom` being the box edges captured before the switch. -/
def resizeBoxStep1 (el : Element) (handleIdx : Nat) (right bottom : ℚ)
    (mouse : Pt) : Element :=
  match handleIdx with
  | 0 => { el with width := right - mouse.x, height := bottom - mouse.y }
  | 1 => { el with height := bottom - mouse.y }
  | 2 => { el with width := mouse.x - el.x, height := bottom - mouse.y }
  | 3 => { el with width := mouse.x - el.x }
  | 4 => { el with width := mouse.x - el.x, height := mouse.y - el.y }
  | 5 => { el with height := mouse.y - el.y }
  | 6 => { el with width := right - mouse.x, height := mouse.y - el.y }
  | 7 => { el with width := right - mouse.x }
  | _ => el

/-- Step 2: proportional scaling for corner handles (whiteboard.js lines
1261-1265): `if (el.width / ratio > el.height) el.height = el.width / ratio;
else el.width = el.height * ratio;`. -/
def resizeCornerLock (el : Element) (ratio : ℚ) : Element :=
  if el.width / ratio > el.height then { el with height := el.width / ratio }
  else { el with width := el.height * ratio }

/-- Step 3: the `minSize = 20` floor (whiteboard.js lines 1267-1269):
`if (el.width < minSize) { el.width = minSize; el.height = el.width / ratio; }
if (el.height < minSize) { el.height = minSize; el.width = el.height * ratio; }`. -/
def resizeMinClamp (el : Element) (ratio : ℚ) : Element :=
  let el1 := if el.width < 20 then { el with width := 20, height := 20 / ratio } else el
  if el1.height < 20 then { el1 with height := 20, width := 20 * ratio } else el1

/-- Step 4: reposition so the handle opposite to the dragged one stays
anchored (whiteboard.js lines 1272-1276). -/
def resizeAnchor (el : Element) (handleIdx : Nat) (right bottom : ℚ) : Element :=
  if handleIdx = 0 then { el with x := right - el.width, y := bottom - el.height }
  else if handleIdx = 1 then { el with y := bottom - el.height }
  else if handleIdx = 2 then { el with y := bottom - el.height }
  else if handleIdx = 6 then { el with x := right - el.width }
  else if handleIdx = 7 then { el with x := right - el.width }
  else el

/-- `resizeElement(el, handleIdx, mouse)` (whiteboard.js lines 1237-1284),
parametrised by the interaction data recorded at drag start
(`aspectRatio`, `initialWidth`, `initialFontSize`). Step 5 scales the
font of text elements: `el.fontSize = Math.max(4, initialFontSize *
(el.width / initialWidth))`. -/
def resizeElement (aspectRatio initialWidth initialFontSize : ℚ)
    (el : Element) (handleIdx : Nat) (mouse : Pt) : Element :=
  let el := stripRendered el
  if el.type = ElType.line then
    if handleIdx = 0 then { el with p1 := mouse } else { el with p2 := mouse }
  else if isBoxType el.type then
    let right := el.x + el.width
    let bottom := el.y + el.height
    let isCorner := handleIdx = 0 ∨ handleIdx = 2 ∨ handleIdx = 4 ∨ handleIdx = 6
    let el1 := resizeBoxStep1 el handleIdx right bottom mouse
    let el2 := if isCorner then resizeCornerLock el1 aspectRatio else el1
    let el3 := resizeMinClamp el2 aspectRatio
    let el4 := resizeAnchor el3 handleIdx right bottom
    if el4.type = ElType.text then
      { el4 with fontSize := max 4 (initialFontSize * (el4.width / initialWidth)) }
    else el4
  else el

/-- The world coordinates of the corner opposite to a given corner handle
(handle order per `getElementHandles`: 0 = top-left, 2 = top-right,
4 = bottom-right, 6 = bottom-left). -/
def oppositeCorner (el : Element) (handleIdx : Nat) : Pt :=
  match handleIdx with
  | 0 => ⟨el.x + el.width, el.y + el.height⟩
  | 2 => ⟨el.x, el.y + el.height⟩
  | 4 => ⟨el.x, el.y⟩
  | 6 => ⟨el.x + el.width, el.y⟩
  | _ => ⟨el.x, el.y⟩

/-! ### Bookkeeping lemmas for the resize pipeline -/

@[simp] theorem stripRendered_type (el : Element) : (stripRendered el).type = el.type := by
  unfold stripRendered; split <;> rfl

@[simp] theorem stripRendered_x (el : Element) : (stripRendered el).x = el.x := by
  unfold stripRendered; split <;> rfl

@[simp] theorem stripRendered_y (el : Element) : (stripRendered el).y = el.y := by
  unfold stripRendered; split <;> rfl

@[simp] theorem stripRendered_width (el : Element) : (stripRendered el).width = el.width := by
  unfold stripRendered; split <;> rfl

@[simp] theorem stripRendered_height (el : Element) : (stripRendered el).height = el.height := by
  unfold stripRendered; split <;> rfl

@[simp] theorem lock_type (el : Element) (r : ℚ) :
    (resizeCornerLock el r).type = el.type := by
  unfold resizeCornerLock; split <;> rfl

@[simp] theorem lock_x (el : Element) (r : ℚ) : (resizeCornerLock el r).x = el.x := by
  unfold resizeCornerLock; split <;> rfl

@[simp] theorem lock_y (el : Element) (r : ℚ) : (resizeCornerLock el r).y = el.y := by
  unfold resizeCornerLock; split <;> rfl

@[simp] theorem clamp_type (el : Element) (r : ℚ) :
    (resizeMinClamp el r).type = el.type := by
  unfold resizeMinClamp; dsimp only; split <;> split <;> rfl

@[simp] theorem clamp_x (el : Element) (r : ℚ) : (resizeMinClamp el r).x = el.x := by
  unfold resizeMinClamp; dsimp only; split <;> split <;> rfl

@[simp] theorem clamp_y (el : Element) (r : ℚ) : (resizeMinClamp el r).y = el.y := by
  unfold resizeMinClamp; dsimp only; split <;> split <;> rfl

/-- After the corner lock, `width = height * ratio` holds exactly. -/
theorem lock_ratio (el : Element) (r : ℚ) (hr : r ≠ 0) :
    (resizeCornerLock el r).width = (resizeCornerLock el r).height * r := by
  unfold resizeCornerLock; split
  · show el.width = el.width / r * r
    rw [div_mul_cancel₀ _ hr]
  · rfl

/-- The min-size clamp preserves the `width = height * ratio` link. -/
theorem clamp_ratio (el : Element) (r : ℚ) (hr : r ≠ 0)
    (h : el.width = el.height * r) :
    (resizeMinClamp el r).width = (resizeMinClamp el r).height * r := by
  unfold resizeMinClamp; dsimp only; split <;> split
  · rfl
  · show (20 : ℚ) = 20 / r * r
    rw [div_mul_cancel₀ _ hr]
  · rfl
  · exact h

/-- After the min-size clamp, the height is always at least 20. -/
theorem clamp_height_ge (el : Element) (r : ℚ) :
    20 ≤ (resizeMinClamp el r).height := by
  unfold resizeMinClamp; dsimp only; split <;> split
  all_goals first
    | exact le_refl 20
    | (rename_i hlt; exact le_of_not_lt hlt)

@[simp] theorem step1_type (el : Element) (h : Nat) (r b : ℚ) (m : Pt) :
    (resizeBoxStep1 el h r b m).type = el.type := by
  unfold resizeBoxStep1; split <;> rfl

@[simp] theorem step1_x (el : Element) (h : Nat) (r b : ℚ) (m : Pt) :
    (resizeBoxStep1 el h r b m).x = el.x := by
  unfold resizeBoxStep1; split <;> rfl

@[simp] theorem step1_y (el : Element) (h : Nat) (r b : ℚ) (m : Pt) :
    (resizeBoxStep1 el h r b m).y = el.y := by
  unfold resizeBoxStep1; split <;> rfl

@[simp] theorem anchor_type (el : Element) (h : Nat) (r b : ℚ) :
    (resizeAnchor el h r b).type = el.type := by
  unfold resizeAnchor; split_ifs <;> rfl

@[simp] theorem anchor_width (el : Element) (h : Nat) (r b : ℚ) :
    (resizeAnchor el h r b).width = el.width := by
  unfold resizeAnchor; split_ifs <;> rfl

@[simp] theorem anchor_height (el : Element) (h : Nat) (r b : ℚ) :
    (resizeAnchor el h r b).height = el.height := by
  unfold resizeAnchor; split_ifs <;> rfl

/-- Corner-handle resizes of box elements leave `width = height * ratio`
and a height of at least 20, whatever the pointer does. -/
theorem resize_corner_wh (el : Element) (handleIdx : Nat) (mouse : Pt)
    (r iw ifs : ℚ) (htype : isBoxType el.type) (hr : r ≠ 0)
    (hidx : handleIdx = 0 ∨ handleIdx = 2 ∨ handleIdx = 4 ∨ handleIdx = 6) :
    (resizeElement r iw ifs el handleIdx mouse).width =
      (resizeElement r iw ifs el handleIdx mouse).height * r ∧
    20 ≤ (resizeElement r iw ifs el handleIdx mouse).height := by
  rcases htype with ht | ht | ht <;>
  rcases hidx with rfl | rfl | rfl | rfl <;>
  · simp only [resizeElement, stripRendered_type, ht, reduceCtorEq, if_false,
      isBoxType, or_true, true_or, or_false, if_true, reduceIte,
      step1_type, lock_type, clamp_type, anchor_type, anchor_width, anchor_height]
    exact ⟨clamp_ratio _ r hr (lock_ratio _ r hr), clamp_height_ge _ r⟩

/-- C3: For a non-text box element (shape or image) with positive width
and height and recorded aspect ratio `r = width / height`, any
corner-handle resize (handle 0, 2, 4 or 6) yields a box with
`width / height = r` whose opposite corner keeps its world coordinates. -/
theorem resize_corner_aspect_lock (el : Element) (handleIdx : Nat) (mouse : Pt)
    (ifs : ℚ) (htype : el.type = ElType.shape ∨ el.type = ElType.image)
    (hw : 0 < el.width) (hh : 0 < el.height)
    (hidx : handleIdx = 0 ∨ handleIdx = 2 ∨ handleIdx = 4 ∨ handleIdx = 6) :
    (resizeElement (recordAspectRatio el.width el.height) el.width ifs el
        handleIdx mouse).width /
      (resizeElement (recordAspectRatio el.width el.height) el.width ifs el
        handleIdx mouse).height = recordAspectRatio el.width el.height ∧
    oppositeCorner (resizeElement (recordAspectRatio el.width el.height)
        el.width ifs el handleIdx mouse) handleIdx = oppositeCorner el handleIdx := by
  have hwne : el.width ≠ 0 := ne_of_gt hw
  have hhne : el.height ≠ 0 := ne_of_gt hh
  have hr : recordAspectRatio el.width el.height ≠ 0 := by
    unfold recordAspectRatio
    rw [if_neg (div_ne_zero hwne hhne)]
    exact div_ne_zero hwne hhne
  have hbox : isBoxType el.type := by
    rcases htype with h | h <;> simp [isBoxType, h]
  obtain ⟨hwh, hge⟩ := resize_corner_wh el handleIdx mouse
    (recordAspectRatio el.width el.height) el.width ifs hbox hr hidx
  have hne : (resizeElement (recordAspectRatio el.width el.height) el.width ifs el
      handleIdx mouse).height ≠ 0 :=
    ne_of_gt (lt_of_lt_of_le (by norm_num) hge)
  refine ⟨?_, ?_⟩
  · rw [hwh]
    exact mul_div_cancel_left₀ _ hne
  · rcases htype with ht | ht <;> rcases hidx with rfl | rfl | rfl | rfl <;>
    · simp [resizeElement, resizeAnchor, oppositeCorner, ht, isBoxType]

/-- Scenario B instance of C3: shape box (0,0,100,50), ratio 2, dragging
the bottom-right corner handle (4) to world (40,40) keeps the top-left
corner at (0,0) and the width at twice the height. -/
theorem resize_corner_aspect_lock_witness :
    (resizeElement (recordAspectRatio 100 50) 100 16
        { id := 1, type := ElType.shape, x := 0, y := 0, width := 100, height := 50 }
        4 ⟨40, 40⟩).width /
      (resizeElement (recordAspectRatio 100 50) 100 16
        { id := 1, type := ElType.shape, x := 0, y := 0, width := 100, height := 50 }
        4 ⟨40, 40⟩).height = recordAspectRatio 100 50 ∧
    oppositeCorner (resizeElement (recordAspectRatio 100 50) 100 16
        { id := 1, type := ElType.shape, x := 0, y := 0, width := 100, height := 50 }
        4 ⟨40, 40⟩) 4 =
      oppositeCorner
        { id := 1, type := ElType.shape, x := 0, y := 0, width := 100, height := 50 } 4 :=
  resize_corner_aspect_lock
    { id := 1, type := ElType.shape, x := 0, y := 0, width := 100, height := 50 }
    4 ⟨40, 40⟩ 16 (Or.inl rfl) (by norm_num) (by norm_num) (by norm_num)

/-- C7 failing input: a shape box (0,0,20,40) (recorded ratio 1/2),
dragged at the bottom-edge handle (5) to world (10,5), resizes to
`width = 10 < 20`: the height clamp re-derives `width = 20 * ratio`
without re-checking the minimum, contradicting the source's own
"Prevent going below minSize" step. -/
theorem resize_minSize_bug :
    (resizeElement (recordAspectRatio 20 40) 20 16
        { id := 1, type := ElType.shape, x := 0, y := 0, width := 20, height := 40 }
        5 ⟨10, 5⟩).width = 10 ∧
    ¬ (20 : ℚ) ≤ (resizeElement (recordAspectRatio 20 40) 20 16
        { id := 1, type := ElType.shape, x := 0, y := 0, width := 20, height := 40 }
        5 ⟨10, 5⟩).width := by
  norm_num [resizeElement, resizeBoxStep1, resizeCornerLock, resizeMinClamp,
    resizeAnchor, stripRendered, recordAspectRatio, isBoxType]
  decide

/-- C8 counterexample: on the text element (0,0,2000,100) with fontSize 16
(recorded ratio 20), dragging the bottom-right corner handle (4) to world
(30, 7/5) yields width 400, not the pointer-derived 30 (the aspect-ratio
lock does apply to text), and fontSize 4 (the floor), not
`initialFontSize * newWidth / initialWidth = 16/5`. -/
theorem resize_text_independent_ce :
    (resizeElement (recordAspectRatio 2000 100) 2000 16
        { id := 1, type := ElType.text, x := 0, y := 0, width := 2000, height := 100 }
        4 ⟨30, 7/5⟩).width ≠
      (⟨30, 7/5⟩ : Pt).x -
        ({ id := 1, type := ElType.text, x := 0, y := 0, width := 2000,
           height := 100 } : Element).x ∧
    (resizeElement (recordAspectRatio 2000 100) 2000 16
        { id := 1, type := ElType.text, x := 0, y := 0, width := 2000, height := 100 }
        4 ⟨30, 7/5⟩).fontSize ≠
      16 * ((resizeElement (recordAspectRatio 2000 100) 2000 16
        { id := 1, type := ElType.text, x := 0, y := 0, width := 2000, height := 100 }
        4 ⟨30, 7/5⟩).width / 2000) := by
  norm_num [resizeElement, resizeBoxStep1, resizeCornerLock, resizeMinClamp,
    resizeAnchor, stripRendered, recordAspectRatio, isBoxType, max_def]
  rw [if_neg (by decide)]
  norm_num

/-- C8 amended: a corner-handle resize of a text element sets
`fontSize = max 4 (initialFontSize * newWidth / initialWidth)` and locks
the box's aspect ratio exactly as for shapes and images
(`width = height * recordedRatio`). -/
theorem resize_text_font_scale (el : Element) (handleIdx : Nat) (mouse : Pt)
    (iw ifs : ℚ) (htype : el.type = ElType.text)
    (hw : 0 < el.width) (hh : 0 < el.height)
    (hidx : handleIdx = 0 ∨ handleIdx = 2 ∨ handleIdx = 4 ∨ handleIdx = 6) :
    (resizeElement (recordAspectRatio el.width el.height) iw ifs el
        handleIdx mouse).fontSize =
      max 4 (ifs * ((resizeElement (recordAspectRatio el.width el.height) iw ifs el
        handleIdx mouse).width / iw)) ∧
    (resizeElement (recordAspectRatio el.width el.height) iw ifs el
        handleIdx mouse).width =
      (resizeElement (recordAspectRatio el.width el.height) iw ifs el
        handleIdx mouse).height * recordAspectRatio el.width el.height := by
  have hr : recordAspectRatio el.width el.height ≠ 0 := by
    unfold recordAspectRatio
    rw [if_neg (div_ne_zero (ne_of_gt hw) (ne_of_gt hh))]
    exact div_ne_zero (ne_of_gt hw) (ne_of_gt hh)
  have hbox : isBoxType el.type := by simp [isBoxType, htype]
  obtain ⟨hwh, -⟩ := resize_corner_wh el handleIdx mouse
    (recordAspectRatio el.width el.height) iw ifs hbox hr hidx
  refine ⟨?_, hwh⟩
  rcases hidx with rfl | rfl | rfl | rfl <;>
  · simp [resizeElement, resizeAnchor, htype, isBoxType]

theorem resize_text_font_scale_witness :
    (resizeElement (recordAspectRatio 100 50) 100 16
        { id := 1, type := ElType.text, x := 0, y := 0, width := 100, height := 50 }
        4 ⟨40, 40⟩).fontSize =
      max 4 (16 * ((resizeElement (recordAspectRatio 100 50) 100 16
        { id := 1, type := ElType.text, x := 0, y := 0, width := 100, height := 50 }
        4 ⟨40, 40⟩).width / 100)) ∧
    (resizeElement (recordAspectRatio 100 50) 100 16
        { id := 1, type := ElType.text, x := 0, y := 0, width := 100, height := 50 }
        4 ⟨40, 40⟩).width =
      (resizeElement (recordAspectRatio 100 50) 100 16
        { id := 1, type := ElType.text, x := 0, y := 0, width := 100, height := 50 }
        4 ⟨40, 40⟩).height * recordAspectRatio 100 50 :=
  resize_text_font_scale
    { id := 1, type := ElType.text, x := 0, y := 0, width := 100, height := 50 }
    4 ⟨40, 40⟩ 100 16 rfl (by norm_num) (by norm_num) (by norm_num)

/-! ## Marquee selection (`finalizeSelection`, whiteboard.js lines 1296-1306) -/

/-- `this.interaction.selectionBox = { startX, startY, currentX, currentY }`. -/
structure SelectionBox where
  startX : ℚ
  startY : ℚ
  currentX : ℚ
  currentY : ℚ
deriving DecidableEq, Repr

/-- The filter body of `finalizeSelection`, given the normalized bounds
`x1 ≤ x2`, `y1 ≤ y2`.  Note the source tests only `el.p1` for a line:
`if (el.type === 'line') return el.p1.x >= x1 && el.p1.x <= x2 &&
el.p1.y >= y1 && el.p1.y <= y2;`. -/
def marqueeSelects (x1 y1 x2 y2 : ℚ) (el : Element) : Bool :=
  match el.type with
  | ElType.line =>
      decide (el.p1.x ≥ x1) && decide (el.p1.x ≤ x2) &&
      decide (el.p1.y ≥ y1) && decide (el.p1.y ≤ y2)
  | ElType.pen =>
      el.points.any fun p =>
        decide (p.x ≥ x1) && decide (p.x ≤ x2) &&
        decide (p.y ≥ y1) && decide (p.y ≤ y2)
  | ElType.shape | ElType.text | ElType.image =>
      decide (el.x ≥ x1) && decide (el.x + el.width ≤ x2) &&
      decide (el.y ≥ y1) && decide (el.y + el.height ≤ y2)
  | _ => false

/-- `finalizeSelection()`: normalize the marquee rectangle and keep every
element its filter accepts as the new selection. -/
def finalizeSelection (box : SelectionBox) (els : List Element) : List Element :=
  let x1 := min box.startX box.currentX
  let y1 := min box.startY box.currentY
  let x2 := max box.startX box.currentX
  let y2 := max box.startY box.currentY
  els.filter (marqueeSelects x1 y1 x2 y2)

/-- C4 counterexample: a line whose second endpoint (5,5) lies inside the
marquee rectangle [0,10]×[0,10] but whose first endpoint does not is NOT
selected: the source consults only `p1`. -/
theorem finalize_line_p2_ce :
    (let l : Element := { id := 1, type := ElType.line, p1 := ⟨20, 20⟩, p2 := ⟨5, 5⟩ }
     ((0 : ℚ) ≤ l.p2.x ∧ l.p2.x ≤ 10 ∧ (0 : ℚ) ≤ l.p2.y ∧ l.p2.y ≤ 10) ∧
       finalizeSelection ⟨0, 0, 10, 10⟩ [l] = []) := by decide

/-- C4 amended: the finalized selection contains exactly the box elements
whose bounding box lies fully inside the normalized marquee rectangle,
the pen elements with at least one path point inside it, and the line
elements whose FIRST endpoint `p1` lies inside it (`p2` is not
consulted). -/
theorem finalizeSelection_mem (box : SelectionBox) (els : List Element)
    (el : Element) (hel : el ∈ els) :
    (el.type = ElType.line →
      (el ∈ finalizeSelection box els ↔
        (min box.startX box.currentX ≤ el.p1.x ∧
         el.p1.x ≤ max box.startX box.currentX ∧
         min box.startY box.currentY ≤ el.p1.y ∧
         el.p1.y ≤ max box.startY box.currentY))) ∧
    (el.type = ElType.pen →
      (el ∈ finalizeSelection box els ↔
        ∃ p ∈ el.points,
          min box.startX box.currentX ≤ p.x ∧
          p.x ≤ max box.startX box.currentX ∧
          min box.startY box.currentY ≤ p.y ∧
          p.y ≤ max box.startY box.currentY)) ∧
    ((el.type = ElType.shape ∨ el.type = ElType.text ∨ el.type = ElType.image) →
      (el ∈ finalizeSelection box els ↔
        (min box.startX box.currentX ≤ el.x ∧
         el.x + el.width ≤ max box.startX box.currentX ∧
         min box.startY box.currentY ≤ el.y ∧
         el.y + el.height ≤ max box.startY box.currentY))) := by
  refine ⟨fun ht => ?_, fun ht => ?_, fun ht => ?_⟩
  · simp [finalizeSelection, List.mem_filter, hel, marqueeSelects, ht,
      and_assoc, ge_iff_le]
  · simp [finalizeSelection, List.mem_filter, hel, marqueeSelects, ht,
      and_assoc, ge_iff_le]
  · rcases ht with ht | ht | ht <;>
    · simp [finalizeSelection, List.mem_filter, hel, marqueeSelects, ht,
        and_assoc, ge_iff_le]

theorem finalizeSelection_mem_witness :
    ({ id := 1, type := ElType.line, p1 := ⟨5, 5⟩, p2 := ⟨20, 20⟩ } : Element) ∈
      finalizeSelection ⟨0, 0, 10, 10⟩
        [{ id := 1, type := ElType.line, p1 := ⟨5, 5⟩, p2 := ⟨20, 20⟩ }] :=
  ((finalizeSelection_mem ⟨0, 0, 10, 10⟩
      [{ id := 1, type := ElType.line, p1 := ⟨5, 5⟩, p2 := ⟨20, 20⟩ }]
      { id := 1, type := ElType.line, p1 := ⟨5, 5⟩, p2 := ⟨20, 20⟩ }
      (List.mem_singleton.mpr rfl)).1 rfl).mpr (by norm_num)

/-! ## History manager (whiteboard.js lines 936-940 and 1001-1028)

JS stacks are arrays with `push` appending at the end (the stack top),
`pop` removing from the end, and `shift` evicting the front (the oldest
snapshot).  We model a snapshot — `JSON.stringify(this.elements)` in the
source, parsed back by `JSON.parse` on restore — as the element list
itself: on the pure value data of §3 the stringify/parse round trip is
the identity, and the top-of-stack skip test compares snapshot strings,
i.e. structural equality of the lists. -/

/-- `history.maxDepth = 50` (whiteboard.js line 939). -/
def maxDepth : Nat := 50

/-- The engine state the history subsystem touches: the element store,
both history stacks, the selection and the camera (`view`, untouched by
history operations). -/
structure WBState where
  elements : List Element
  undoStack : List (List Element)
  redoStack : List (List Element)
  selectedElements : List Element
  view : View
deriving DecidableEq, Repr

/-- `saveHistory()` (whiteboard.js lines 1001-1008): skip if the snapshot
equals the top of the undo stack; otherwise push it, clear the redo
stack, and evict the oldest entry if the depth bound is exceeded. -/
def saveHistory (s : WBState) : WBState :=
  if s.undoStack.getLast? = some s.elements then s
  else
    let pushed := s.undoStack ++ [s.elements]
    { s with
      undoStack := if pushed.length > maxDepth then pushed.tail else pushed
      redoStack := [] }

/-- `undo()` (whiteboard.js lines 1010-1018): no-op on an empty undo
stack; otherwise push the current elements onto the redo stack, pop the
undo stack, restore the popped snapshot and clear the selection. -/
def undo (s : WBState) : WBState :=
  match s.undoStack.getLast? with
  | none => s
  | some previousState =>
      { s with
        elements := previousState
        undoStack := s.undoStack.dropLast
        redoStack := s.redoStack ++ [s.elements]
        selectedElements := [] }

/-- `redo()` (whiteboard.js lines 1020-1028): the mirror of `undo`. -/
def redo (s : WBState) : WBState :=
  match s.redoStack.getLast? with
  | none => s
  | some nextState =>
      { s with
        elements := nextState
        undoStack := s.undoStack ++ [s.elements]
        redoStack := s.redoStack.dropLast
        selectedElements := [] }

/-- C5: With a non-empty undo stack whose top is the snapshot `snap`,
`undo()` pops the undo stack, pushes the current elements onto the redo
stack, restores `snap` and clears the selection; `redo()` is the mirror
operation; and `undo(); redo(); undo()` leaves the element store equal
to exactly `snap`. -/
theorem undo_redo_undo (s : WBState) (u : List (List Element))
    (snap : List Element) (hu : s.undoStack = u ++ [snap]) :
    undo s = { s with
        elements := snap
        undoStack := u
        redoStack := s.redoStack ++ [s.elements]
        selectedElements := [] } ∧
    (∀ t : WBState, ∀ r : List (List Element), ∀ nx : List Element,
      t.redoStack = r ++ [nx] →
      redo t = { t with
          elements := nx
          undoStack := t.undoStack ++ [t.elements]
          redoStack := r
          selectedElements := [] }) ∧
    (undo (redo (undo s))).elements = snap := by
  have hredo : ∀ t : WBState, ∀ r : List (List Element), ∀ nx : List Element,
      t.redoStack = r ++ [nx] →
      redo t = { t with
          elements := nx
          undoStack := t.undoStack ++ [t.elements]
          redoStack := r
          selectedElements := [] } := by
    intro t r nx ht
    unfold redo
    rw [ht, List.getLast?_concat, List.dropLast_concat]
  have hundo : undo s = { s with
      elements := snap
      undoStack := u
      redoStack := s.redoStack ++ [s.elements]
      selectedElements := [] } := by
    unfold undo
    rw [hu, List.getLast?_concat, List.dropLast_concat]
  refine ⟨hundo, hredo, ?_⟩
  rw [hundo, hredo _ s.redoStack s.elements rfl]
  unfold undo
  rw [List.getLast?_concat, List.dropLast_concat]

theorem undo_redo_undo_witness :
    (undo (redo (undo
      { elements := [{ id := 1, type := ElType.pen }]
        undoStack := [[]]
        redoStack := []
        selectedElements := [{ id := 1, type := ElType.pen }]
        view := ⟨0, 0, 1⟩ }))).elements = [] :=
  (undo_redo_undo
    { elements := [{ id := 1, type := ElType.pen }]
      undoStack := [[]]
      redoStack := []
      selectedElements := [{ id := 1, type := ElType.pen }]
      view := ⟨0, 0, 1⟩ } [] [] rfl).2.2

/-- C6: `saveHistory()` (i) skips the push (state unchanged) when the
snapshot equals the top of the undo stack; (ii) otherwise pushes the
snapshot on top and clears the redo stack, without eviction while the
depth is below the bound; (iii) preserves the depth bound `maxDepth = 50`,
evicting the oldest (front) entry when a push happens at full depth. -/
theorem saveHistory_spec (s : WBState) :
    (s.undoStack.getLast? = some s.elements → saveHistory s = s) ∧
    (s.undoStack.getLast? ≠ some s.elements →
      (saveHistory s).redoStack = [] ∧
      (saveHistory s).undoStack.getLast? = some s.elements ∧
      (s.undoStack.length < maxDepth →
        (saveHistory s).undoStack = s.undoStack ++ [s.elements])) ∧
    (s.undoStack.length ≤ maxDepth →
      (saveHistory s).undoStack.length ≤ maxDepth) ∧
    (s.undoStack.length = maxDepth → s.undoStack.getLast? ≠ some s.elements →
      (saveHistory s).undoStack = s.undoStack.tail ++ [s.elements]) := by
  refine ⟨fun htop => ?_, fun htop => ?_, fun hlen => ?_, fun hlen htop => ?_⟩
  · unfold saveHistory
    rw [if_pos htop]
  · unfold saveHistory
    rw [if_neg htop]
    refine ⟨rfl, ?_, fun hlt => ?_⟩
    · show (if (s.undoStack ++ [s.elements]).length > maxDepth
            then (s.undoStack ++ [s.elements]).tail
            else s.undoStack ++ [s.elements]).getLast? = some s.elements
      split
      · rename_i hgt
        obtain ⟨a, rest, hu⟩ : ∃ a rest, s.undoStack = a :: rest := by
          cases hcase : s.undoStack with
          | nil => rw [hcase] at hgt; simp [maxDepth] at hgt
          | cons a rest => exact ⟨a, rest, rfl⟩
        rw [hu]
        show (rest ++ [s.elements]).getLast? = some s.elements
        exact List.getLast?_concat _
      · exact List.getLast?_concat _
    · show (if (s.undoStack ++ [s.elements]).length > maxDepth
            then (s.undoStack ++ [s.elements]).tail
            else s.undoStack ++ [s.elements]) = s.undoStack ++ [s.elements]
      rw [if_neg]
      simp only [List.length_append, List.length_singleton, gt_iff_lt, not_lt]
      omega
  · unfold saveHistory
    split
    · exact hlen
    · show (if (s.undoStack ++ [s.elements]).length > maxDepth
            then (s.undoStack ++ [s.elements]).tail
            else s.undoStack ++ [s.elements]).length ≤ maxDepth
      split
      · rename_i hgt
        simp only [List.length_tail, List.length_append, List.length_singleton]
        omega
      · rename_i hngt
        simp only [List.length_append, List.length_singleton] at hngt ⊢
        omega
  · unfold saveHistory
    rw [if_neg htop]
    show (if (s.undoStack ++ [s.elements]).length > maxDepth
          then (s.undoStack ++ [s.elements]).tail
          else s.undoStack ++ [s.elements]) = s.undoStack.tail ++ [s.elements]
    rw [if_pos]
    · obtain ⟨a, rest, hu⟩ : ∃ a rest, s.undoStack = a :: rest := by
        cases hcase : s.undoStack with
        | nil => rw [hcase] at hlen; simp [maxDepth] at hlen
        | cons a rest => exact ⟨a, rest, rfl⟩
      rw [hu]
      rfl
    · simp only [List.length_append, List.length_singleton, gt_iff_lt]
      omega

theorem saveHistory_spec_witness :
    (saveHistory
      { elements := [{ id := 1, type := ElType.pen }]
        undoStack := [[]]
        redoStack := [[], []]
        selectedElements := []
        view := ⟨0, 0, 1⟩ }).redoStack = [] ∧
    (saveHistory
      { elements := [{ id := 1, type := ElType.pen }]
        undoStack := [[]]
        redoStack := [[], []]
        selectedElements := []
        view := ⟨0, 0, 1⟩ }).undoStack = [[], [{ id := 1, type := ElType.pen }]] := by
  have h := (saveHistory_spec
    { elements := [{ id := 1, type := ElType.pen }]
      undoStack := [[]]
      redoStack := [[], []]
      selectedElements := []
      view := ⟨0, 0, 1⟩ }).2.1 (by simp)
  exact ⟨h.1, h.2.2 (by simp [maxDepth])⟩

/-- C10: `undo()` on an empty undo stack and `redo()` on an empty redo
stack are complete no-ops: elements, both stacks, selection and camera
are all unchanged. -/
theorem undo_redo_empty_noop (s : WBState) :
    (s.undoStack = [] → undo s = s) ∧ (s.redoStack = [] → redo s = s) := by
  constructor <;> intro h
  · unfold undo
    rw [h]
    rfl
  · unfold redo
    rw [h]
    rfl

theorem undo_redo_empty_noop_witness :
    undo { elements := [{ id := 7, type := ElType.shape }], undoStack := [],
           redoStack := [], selectedElements := [], view := ⟨1, 2, 3⟩ } =
      { elements := [{ id := 7, type := ElType.shape }], undoStack := [],
        redoStack := [], selectedElements := [], view := ⟨1, 2, 3⟩ } ∧
    redo { elements := [{ id := 7, type := ElType.shape }], undoStack := [],
           redoStack := [], selectedElements := [], view := ⟨1, 2, 3⟩ } =
      { elements := [{ id := 7, type := ElType.shape }], undoStack := [],
        redoStack := [], selectedElements := [], view := ⟨1, 2, 3⟩ } :=
  ⟨(undo_redo_empty_noop _).1 rfl, (undo_redo_empty_noop _).2 rfl⟩

/-! ## Theme change (whiteboard.js lines 1105-1109 and the theme-toggle
handler of src/app.js lines 274-284) -/

/-- `const newColor = isLightMode ? '#1a1a1d' : '#ffffff'`. -/
def themeColor (isLightMode : Bool) : String :=
  if isLightMode then "#1a1a1d" else "#ffffff"

/-- `updateThemeColors(isLightMode)` (whiteboard.js lines 1105-1109):
`this.elements.forEach(el => { if (el.isAutoColor) el.color = newColor;
if (el.isAutoFill) el.fillColor = newColor; });` — colors only; it does
not touch cached bitmaps. -/
def updateThemeColors (isLightMode : Bool) (els : List Element) : List Element :=
  let newColor := themeColor isLightMode
  els.map fun el =>
    let el1 := if el.isAutoColor then { el with color := newColor } else el
    if el1.isAutoFill then { el1 with fillColor := newColor } else el1

/-- The theme-toggle change handler of src/app.js (lines 274-284): calls
`updateThemeColors(isL)` and then
`this.whiteboard.elements.forEach(el => { if (el.type === 'text' ||
el.type === 'pdf') el.renderedImage = null; })`. -/
def themeToggleChange (isL : Bool) (els : List Element) : List Element :=
  (updateThemeColors isL els).map fun el =>
    if el.type = ElType.text ∨ el.type = ElType.pdf then
      { el with renderedImage := none }
    else el

/-- C9 counterexample: an `isAutoColor` text element with a cached bitmap
still has its `renderedImage` set after `updateThemeColors(true)` — the
engine function rewrites colors only and does not invalidate bitmaps. -/
theorem updateTheme_bitmap_ce :
    (let e : Element :=
       { id := 1, type := ElType.text, color := "#ffffff",
         isAutoColor := true, renderedImage := some "bitmap" }
     e.isAutoColor = true ∧ e.renderedImage = some "bitmap" ∧
       (updateThemeColors true [e]).map Element.renderedImage = [some "bitmap"]) := by
  decide

/-- C9 amended: `updateThemeColors(isLight)` rewrites `color` on every
`isAutoColor` element and `fillColor` on every `isAutoFill` element to
the theme foreground, leaving every other field (including
`renderedImage`) unchanged; the cached-bitmap invalidation happens in the
caller, the app-level theme-toggle handler, which immediately afterwards
nulls `renderedImage` on every text/pdf element (a superset of the
auto-colored bitmap-carrying elements). -/
theorem updateTheme_amended (isL : Bool) (els : List Element) :
    updateThemeColors isL els = els.map (fun el =>
      { el with
        color := if el.isAutoColor then themeColor isL else el.color
        fillColor := if el.isAutoFill then themeColor isL else el.fillColor }) ∧
    ∀ el ∈ themeToggleChange isL els,
      el.type = ElType.text ∨ el.type = ElType.pdf → el.renderedImage = none := by
  constructor
  · unfold updateThemeColors
    induction els with
    | nil => rfl
    | cons a t ih =>
        simp only [List.map_cons, List.cons.injEq]
        refine ⟨?_, ih⟩
        obtain ⟨i, ty, q1, q2, pts, px, py, wd, hd, fs, col, iac, fc, iaf, ri⟩ := a
        cases iac <;> cases iaf <;> rfl
  · intro el hmem htype
    unfold themeToggleChange at hmem
    rw [List.mem_map] at hmem
    obtain ⟨a, -, rfl⟩ := hmem
    by_cases h : a.type = ElType.text ∨ a.type = ElType.pdf
    · simp [h]
    · rw [if_neg h] at htype ⊢
      exact absurd htype h

theorem updateTheme_amended_witness :
    updateThemeColors true
      [{ id := 1, type := ElType.text, color := "#ffffff", isAutoColor := true,
         renderedImage := some "bitmap" }] =
      [{ id := 1, type := ElType.text, color := "#1a1a1d", isAutoColor := true,
         renderedImage := some "bitmap" }] ∧
    (themeToggleChange true
      [{ id := 1, type := ElType.text, color := "#ffffff", isAutoColor := true,
         renderedImage := some "bitmap" }]).map Element.renderedImage = [none] := by
  have h := updateTheme_amended true
    [{ id := 1, type := ElType.text, color := "#ffffff", isAutoColor := true,
       renderedImage := some "bitmap" }]
  refine ⟨?_, ?_⟩
  · rw [h.1]
    simp [themeColor]
  · have h2 := h.2
    simp only [themeToggleChange] at h2 ⊢
    simp [updateThemeColors, themeColor]
